import Mathlib

/-!
Shallow embedding of the week1 chat server (`src/week1/server.py`).

Python dictionaries (`self.clients : {sock: nickname}` and
`self.nick_map : {nickname: sock}`) are modelled as association lists with
in-place replacement on key collision and append on fresh keys, which is
exactly the Python dict update discipline.  Sockets are modelled as natural
numbers.  Network writes are modelled as events; `sock.sendall` may raise
`OSError`, modelled by a failure predicate on connections, and `_send_line`
catches that error, modelled by mapping the failure to an empty event list.
-/

abbrev Conn := Nat

/-- Association-list lookup: first binding of the key, like a Python dict read. -/
def dlookup {α β : Type} [DecidableEq α] : List (α × β) → α → Option β
  | [], _ => none
  | (k, v) :: t, a => if k = a then some v else dlookup t a

/-- Association-list insert with Python dict semantics: replace the first
binding in place if the key is present, otherwise append at the end. -/
def dinsert {α β : Type} [DecidableEq α] : List (α × β) → α → β → List (α × β)
  | [], a, b => [(a, b)]
  | (k, v) :: t, a, b => if k = a then (a, b) :: t else (k, v) :: dinsert t a b

/-- Association-list delete of the first binding of a key (`dict.pop`). -/
def derase {α β : Type} [DecidableEq α] : List (α × β) → α → List (α × β)
  | [], _ => []
  | (k, v) :: t, a => if k = a then t else (k, v) :: derase t a

/-- The key list of an association list (`dict.keys()`). -/
def dkeys {α β : Type} (l : List (α × β)) : List α := l.map Prod.fst

/-- The shared client registry: `clients = {sock: nickname}` and
`nick_map = {nickname: sock}` from `ChatServer.__init__`. -/
structure Registry where
  clients : List (Conn × String)
  nickMap : List (String × Conn)
deriving DecidableEq

/-- The freshly constructed registry: both dicts empty. -/
def Registry.empty : Registry := ⟨[], []⟩

/-- `ChatServer._register_client`: insert both directions under the lock. -/
def registerClient (r : Registry) (c : Conn) (n : String) : Registry :=
  ⟨dinsert r.clients c n, dinsert r.nickMap n c⟩

/-- The registry part of `ChatServer._remove_client`:
`clients.pop(sock, None)`, and if a nickname was present also
`nick_map.pop(nickname, None)`.  Returns the popped nickname. -/
def removeClient (r : Registry) (c : Conn) : Registry × Option String :=
  match dlookup r.clients c with
  | none => (r, none)
  | some n => (⟨derase r.clients c, derase r.nickMap n⟩, some n)

/-- `ChatServer._get_nickname`: `clients.get(sock)` under the lock. -/
def lookupNickname (r : Registry) (c : Conn) : Option String :=
  dlookup r.clients c

/-- `nick_map.get(nickname)`: resolve a nickname to its connection. -/
def lookupConnection (r : Registry) (n : String) : Option Conn :=
  dlookup r.nickMap n

/-- `list(self.clients.keys())`: the snapshot taken under the lock. -/
def snapshotConnections (r : Registry) : List Conn := dkeys r.clients

/-- Decimal digit character, as produced by Python string formatting. -/
def digitChar : Nat → Char
  | 0 => '0'
  | 1 => '1'
  | 2 => '2'
  | 3 => '3'
  | 4 => '4'
  | 5 => '5'
  | 6 => '6'
  | 7 => '7'
  | 8 => '8'
  | 9 => '9'
  | _ => '*'

/-- Fuel-indexed decimal digit list of a natural number, most significant
digit first; fuel `n + 1` always suffices. -/
def natDigitsAux : Nat → Nat → List Char
  | 0, _ => []
  | fuel + 1, n =>
    if n < 10 then [digitChar n]
    else natDigitsAux fuel (n / 10) ++ [digitChar (n % 10)]

/-- Decimal rendering of a natural number, as Python `f-string` formatting
of an `int` produces it. -/
def natRepr (n : Nat) : String := String.mk (natDigitsAux (n + 1) n)

/-- Value of a most-significant-first digit list; left inverse of `natDigitsAux`. -/
def digitsVal (l : List Char) : Nat :=
  l.foldl (fun a c => 10 * a + (c.toNat - 48)) 0

/-- Bounded suffix search of `ChatServer._make_unique_nickname`: starting at
suffix `i`, return the first candidate `base ++ natRepr i` that is not a key
of the nickname map.  The Python loop is unbounded (`while True`); fuel
`nick_map.length + 1` is proved sufficient below. -/
def searchSuffix (nm : List (String × Conn)) (base : String) : Nat → Nat → Option String
  | 0, _ => none
  | fuel + 1, i =>
    let cand := base ++ natRepr i
    match dlookup nm cand with
    | some _ => searchSuffix nm base fuel (i + 1)
    | none => some cand

/-- `ChatServer._make_unique_nickname`: under the lock, return `base` when it
is not a key of `nick_map`, otherwise the first free `base ++ i` for
`i = 2, 3, ...`. -/
def makeUniqueNickname (nm : List (String × Conn)) (base : String) : String :=
  match dlookup nm base with
  | none => base
  | some _ => (searchSuffix nm base (nm.length + 1) 2).getD base

/-- Observable effects of the server on the outside world: a line actually
written to a connection, a connection close, and the listener close. -/
inductive Event
  | send (c : Conn) (line : String)
  | close (c : Conn)
  | closeListener
deriving DecidableEq

/-- `sock.sendall(...)`: succeeds and emits the line, or raises `OSError`
when the connection is broken. -/
def sendBytes (fail : Conn → Bool) (c : Conn) (line : String) : Except Unit Event :=
  if fail c then Except.error () else Except.ok (Event.send c line)

/-- `ChatServer._send_line`: attempt the write and swallow `OSError`. -/
def sendLine (fail : Conn → Bool) (c : Conn) (line : String) : List Event :=
  match sendBytes fail c line with
  | Except.ok e => [e]
  | Except.error _ => []

/-- The iteration of `_broadcast` over the snapshot, one `_send_line` each. -/
def sendAll (fail : Conn → Bool) : List Conn → String → List Event
  | [], _ => []
  | c :: t, line => sendLine fail c line ++ sendAll fail t line

/-- `ChatServer._broadcast`: snapshot the client connections under the lock,
then write the line to each outside the lock. -/
def broadcast (fail : Conn → Bool) (r : Registry) (line : String) : List Event :=
  sendAll fail (snapshotConnections r) line

/-- Split a character list at the first occurrence of `sep`, if any. -/
def splitFirst (sep : Char) : List Char → Option (List Char × List Char)
  | [] => none
  | c :: t =>
    if c = sep then some ([], t)
    else (splitFirst sep t).map (fun p => (c :: p.1, p.2))

/-- Python `raw.split(' ', 2)`: at most two splits on a space, preserving
empty fields and all remaining spaces inside the last field. -/
def pySplitMax2 (s : String) : List String :=
  match splitFirst ' ' s.data with
  | none => [s]
  | some (a, rest) =>
    match splitFirst ' ' rest with
    | none => [String.mk a, String.mk rest]
    | some (b, c) => [String.mk a, String.mk b, String.mk c]

/-- Python `x or default` on an optional string: `None` and the empty
string are both falsy. -/
def pyOr (s : Option String) (dflt : String) : String :=
  match s with
  | none => dflt
  | some v => if v = "" then dflt else v

/-- `ChatServer._handle_whisper`: parse `/w target message`, answer usage
errors and unknown targets to the sender only, otherwise deliver to the
target and confirm to the sender.  The sender nickname falls back to the
fixed placeholder when the sender is no longer registered. -/
def handleWhisper (fail : Conn → Bool) (r : Registry) (sender : Conn) (raw : String) :
    List Event :=
  match pySplitMax2 raw with
  | [_, target, message] =>
    if target = "" ∨ message = "" then
      sendLine fail sender "형식: /w 대상닉 메시지"
    else
      let targetSock := dlookup r.nickMap target
      let senderNick := pyOr (dlookup r.clients sender) "알수없음"
      match targetSock with
      | none => sendLine fail sender ("대상 [" ++ target ++ "]을(를) 찾을 수 없습니다.")
      | some ts =>
        sendLine fail ts ("(귓속말) " ++ senderNick ++ "> " ++ message) ++
          sendLine fail sender
            ("(귓속말 전송) " ++ senderNick ++ " -> " ++ target ++ ": " ++ message)
  | _ => sendLine fail sender "형식: /w 대상닉 메시지"

/-- Result of one `client_sock.recv(1024)`: peer data, a zero-length read
(peer closed), or a raised `ConnectionResetError`. -/
inductive RecvR
  | data (s : String)
  | closed
  | err
deriving DecidableEq

/-- `ChatServer._handshake_for_nickname`: prompt, read one line, abort on
read failure or zero-length read, otherwise trim, default empty input to
the fixed base name, make the nickname unique and confirm it. -/
def handshakeForNickname (fail : Conn → Bool) (r : Registry) (c : Conn) (first : RecvR) :
    List Event × Option String :=
  let evs := sendLine fail c "닉네임을 입력해주세요:"
  match first with
  | RecvR.err => (evs, none)
  | RecvR.closed => (evs, none)
  | RecvR.data s =>
    let raw0 := s.trim
    let raw := if raw0 = "" then "user" else raw0
    let nickname := makeUniqueNickname r.nickMap raw
    (evs ++ sendLine fail c ("닉네임이 [" ++ nickname ++ "]로 설정되었습니다."), some nickname)

/-- `ChatServer._remove_client`: pop both registry directions, broadcast the
leave announcement when a nickname was popped, then close the socket. -/
def removeClientRun (fail : Conn → Bool) (r : Registry) (c : Conn) : Registry × List Event :=
  match dlookup r.clients c with
  | none => (r, [Event.close c])
  | some n =>
    let r2 : Registry := ⟨derase r.clients c, derase r.nickMap n⟩
    (r2, broadcast fail r2 ("[" ++ n ++ "]님이 퇴장하셨습니다.") ++ [Event.close c])

/-- The per-session receive loop of `ChatServer._handle_client`, driven by a
script of recv results.  Returns the emitted events and whether the loop
terminated (`true`) or the script ran out while the session was still live
(`false`).  A `ConnectionResetError` is caught by the handler and likewise
terminates the loop. -/
def handleLoop (fail : Conn → Bool) (r : Registry) (c : Conn) :
    List RecvR → List Event × Bool
  | [] => ([], false)
  | RecvR.closed :: _ => ([], true)
  | RecvR.err :: _ => ([], true)
  | RecvR.data s :: rest =>
    let msg := s.trim
    if msg = "" then handleLoop fail r c rest
    else if msg = "/종료" then (sendLine fail c "연결을 종료합니다.", true)
    else if msg.startsWith "/w " then
      let evs := handleWhisper fail r c msg
      let tail := handleLoop fail r c rest
      (evs ++ tail.1, tail.2)
    else
      match dlookup r.clients c with
      | none => ([], true)
      | some sender =>
        let evs := broadcast fail r (sender ++ "> " ++ msg)
        let tail := handleLoop fail r c rest
        (evs ++ tail.1, tail.2)

/-- Outcome of a full `_handle_client` run: the registry it leaves behind,
the events it emitted, whether it finished (reached its cleanup), and the
nickname the handshake assigned (none on handshake abort). -/
structure HResult where
  registry : Registry
  events : List Event
  finished : Bool
  assigned : Option String
deriving DecidableEq

/-- `ChatServer._handle_client`: handshake; on abort close and fall through
to the cleanup; on success register, broadcast the join announcement, send
the two help lines, run the loop, and when the loop ends fall through to the
cleanup (`finally: self._remove_client(client_sock)`). -/
def handleClient (fail : Conn → Bool) (r : Registry) (c : Conn) (first : RecvR)
    (script : List RecvR) : HResult :=
  match handshakeForNickname fail r c first with
  | (evs, none) =>
    let cleanup := removeClientRun fail r c
    ⟨cleanup.1, evs ++ [Event.close c] ++ cleanup.2, true, none⟩
  | (evs, some nickname) =>
    let r1 := registerClient r c nickname
    let evs1 := broadcast fail r1 ("[" ++ nickname ++ "]님이 입장하셨습니다.")
    let evs2 := sendLine fail c "안내: 일반 메시지는 모두에게 전송됩니다." ++
      sendLine fail c "안내: 종료는 /종료, 귓속말은 /w 대상닉 메시지"
    let body := handleLoop fail r1 c script
    if body.2 then
      let cleanup := removeClientRun fail r1 c
      ⟨cleanup.1, evs ++ evs1 ++ evs2 ++ body.1 ++ cleanup.2, true, some nickname⟩
    else
      ⟨r1, evs ++ evs1 ++ evs2 ++ body.1, false, some nickname⟩

/-- Server-level state for the shutdown path: the registry, the stop flag,
the listening socket, and the set of already-closed client sockets (sends to
those raise `OSError`, which `_send_line` swallows). -/
structure ServerState where
  registry : Registry
  stopFlag : Bool
  listenerOpen : Bool
  closedConns : List Conn
deriving DecidableEq

/-- The drain iteration of `_shutdown`: best-effort send of the fixed
termination notice to each snapshot connection, then close it. -/
def drainAll (fail : Conn → Bool) : List Conn → List Event
  | [] => []
  | c :: t => sendLine fail c "서버가 종료됩니다." ++ (Event.close c :: drainAll fail t)

/-- `ChatServer._shutdown`: set the stop flag, snapshot the clients under
the lock, send the termination notice to and close each, then close the
listener.  The registry itself is not cleared and no ran-before flag is
consulted. -/
def shutdownRun (fail : Conn → Bool) (st : ServerState) : ServerState × List Event :=
  let st1 : ServerState := { st with stopFlag := true }
  let targets := snapshotConnections st1.registry
  let effFail : Conn → Bool := fun c => fail c || decide (c ∈ st1.closedConns)
  let evs := drainAll effFail targets
  ({ st1 with closedConns := st1.closedConns ++ targets, listenerOpen := false },
   evs ++ [Event.closeListener])

/-- Program counter of one handshaking thread: about to call
`_make_unique_nickname`, holding a generated nickname and about to call
`_register_client`, or done.  Each phase transition is one lock-protected
atomic step, exactly the granularity of the source (the lock is released
between generation and registration). -/
inductive HsPhase
  | start (base : String)
  | generated (nick : String)
  | done (nick : String)
deriving DecidableEq

/-- One atomic step of thread `t`: generation reads the nickname map under
the lock; registration inserts both directions under the lock. -/
def hsStep (s : Registry × List (Conn × HsPhase)) (t : Conn) :
    Registry × List (Conn × HsPhase) :=
  match dlookup s.2 t with
  | none => s
  | some (HsPhase.start base) =>
    (s.1, dinsert s.2 t (HsPhase.generated (makeUniqueNickname s.1.nickMap base)))
  | some (HsPhase.generated nick) =>
    (registerClient s.1 t nick, dinsert s.2 t (HsPhase.done nick))
  | some (HsPhase.done _) => s

/-- Run a schedule of thread steps over the two-phase handshake system. -/
def hsRun (init : Registry × List (Conn × HsPhase)) (sched : List Conn) :
    Registry × List (Conn × HsPhase) :=
  sched.foldl hsStep init

/-- A registry mutation: `_register_client` or the registry half of
`_remove_client`. -/
inductive RegOp
  | reg (c : Conn) (n : String)
  | unreg (c : Conn)

/-- Apply one registry mutation. -/
def applyOp (r : Registry) : RegOp → Registry
  | RegOp.reg c n => registerClient r c n
  | RegOp.unreg c => (removeClient r c).1

/-- Apply a sequence of registry mutations in order. -/
def applyOps (r : Registry) (ops : List RegOp) : Registry :=
  ops.foldl applyOp r

/-- The claimed call discipline: every registered nickname was just produced
by the generator, hence free in `nick_map` (and, amended, the connection is
not currently registered either). -/
def ValidOps : Registry → List RegOp → Prop
  | _, [] => True
  | r, RegOp.reg c n :: rest =>
    lookupConnection r n = none ∧ lookupNickname r c = none ∧
      ValidOps (applyOp r (RegOp.reg c n)) rest
  | r, RegOp.unreg c :: rest => ValidOps (applyOp r (RegOp.unreg c)) rest

/-- The all-writes-succeed failure predicate. -/
def noFail : Conn → Bool := fun _ => false

/-- Registry bijectivity: the two dict directions are mutually inverse. -/
def Bij (r : Registry) : Prop :=
  (∀ c n, dlookup r.clients c = some n → dlookup r.nickMap n = some c) ∧
  (∀ n c, dlookup r.nickMap n = some c → dlookup r.clients c = some n)

/-- Well-formedness carried through the induction: both dicts have nodup
keys (Python dicts cannot hold a key twice) and are mutually inverse. -/
def RegInv (r : Registry) : Prop :=
  (dkeys r.clients).Nodup ∧ (dkeys r.nickMap).Nodup ∧ Bij r


theorem dlookup_dinsert_self {α β : Type} [DecidableEq α] (l : List (α × β)) (a : α) (b : β) :
    dlookup (dinsert l a b) a = some b := by
  induction l with
  | nil => simp [dinsert, dlookup]
  | cons p t ih =>
    obtain ⟨k, v⟩ := p
    by_cases hk : k = a
    · subst hk
      simp [dinsert, dlookup]
    · simp [dinsert, dlookup, hk, ih]

theorem dlookup_dinsert_ne {α β : Type} [DecidableEq α] (l : List (α × β)) (a a2 : α) (b : β)
    (h : a2 ≠ a) : dlookup (dinsert l a b) a2 = dlookup l a2 := by
  have hne : ¬ a = a2 := fun he => h he.symm
  induction l with
  | nil => simp [dinsert, dlookup, hne]
  | cons p t ih =>
    obtain ⟨k, v⟩ := p
    by_cases hk : k = a
    · subst hk
      simp [dinsert, dlookup, hne]
    · simp [dinsert, dlookup, hk, ih]

theorem dlookup_derase_ne {α β : Type} [DecidableEq α] (l : List (α × β)) (a a2 : α)
    (h : a2 ≠ a) : dlookup (derase l a) a2 = dlookup l a2 := by
  have hne : ¬ a = a2 := fun he => h he.symm
  induction l with
  | nil => simp [derase]
  | cons p t ih =>
    obtain ⟨k, v⟩ := p
    by_cases hk : k = a
    · subst hk
      simp [derase, dlookup, hne]
    · simp [derase, dlookup, hk, ih]

theorem dkeys_cons {α β : Type} (k : α) (v : β) (t : List (α × β)) :
    dkeys ((k, v) :: t) = k :: dkeys t := rfl

theorem dlookup_eq_none_iff {α β : Type} [DecidableEq α] (l : List (α × β)) (a : α) :
    dlookup l a = none ↔ a ∉ dkeys l := by
  induction l with
  | nil => simp [dlookup, dkeys]
  | cons p t ih =>
    obtain ⟨k, v⟩ := p
    by_cases hk : k = a
    · subst hk
      simp [dlookup, dkeys_cons]
    · have hne : ¬ a = k := fun he => hk he.symm
      have hstep : dlookup ((k, v) :: t) a = dlookup t a := by simp [dlookup, hk]
      rw [hstep, ih, dkeys_cons]
      simp [hne]

theorem mem_dkeys_of_dlookup {α β : Type} [DecidableEq α] (l : List (α × β)) (a : α) (b : β)
    (h : dlookup l a = some b) : a ∈ dkeys l := by
  by_contra hmem
  rw [← dlookup_eq_none_iff] at hmem
  rw [h] at hmem
  cases hmem

theorem dlookup_derase_self {α β : Type} [DecidableEq α] (l : List (α × β)) (a : α)
    (h : (dkeys l).Nodup) : dlookup (derase l a) a = none := by
  induction l with
  | nil => simp [derase, dlookup]
  | cons p t ih =>
    obtain ⟨k, v⟩ := p
    rw [show dkeys ((k, v) :: t) = k :: dkeys t from rfl, List.nodup_cons] at h
    by_cases hk : k = a
    · subst hk
      rw [show derase ((k, v) :: t) k = t from by simp [derase]]
      rw [dlookup_eq_none_iff]
      exact h.1
    · rw [show derase ((k, v) :: t) a = (k, v) :: derase t a from by simp [derase, hk]]
      rw [show dlookup ((k, v) :: derase t a) a = dlookup (derase t a) a from by
        simp [dlookup, hk]]
      exact ih h.2

theorem dkeys_dinsert {α β : Type} [DecidableEq α] (l : List (α × β)) (a : α) (b : β) :
    dkeys (dinsert l a b) = if a ∈ dkeys l then dkeys l else dkeys l ++ [a] := by
  induction l with
  | nil => simp [dinsert, dkeys]
  | cons p t ih =>
    obtain ⟨k, v⟩ := p
    by_cases hk : k = a
    · subst hk
      rw [show dinsert ((k, v) :: t) k b = (k, b) :: t from by simp [dinsert],
        dkeys_cons, dkeys_cons]
      simp
    · have hne : ¬ a = k := fun he => hk he.symm
      rw [show dinsert ((k, v) :: t) a b = (k, v) :: dinsert t a b from by
        simp [dinsert, hk], dkeys_cons, dkeys_cons, ih]
      by_cases hmem : a ∈ dkeys t
      · simp [hmem, hne]
      · simp [hmem, hne]

theorem dkeys_dinsert_nodup {α β : Type} [DecidableEq α] (l : List (α × β)) (a : α) (b : β)
    (h : (dkeys l).Nodup) : (dkeys (dinsert l a b)).Nodup := by
  rw [dkeys_dinsert]
  by_cases hmem : a ∈ dkeys l
  · simpa [hmem] using h
  · simp only [hmem, if_false]
    refine List.Nodup.append h (List.nodup_singleton a) ?_
    intro x hx hx2
    rw [List.mem_singleton] at hx2
    subst hx2
    exact hmem hx

theorem dkeys_derase_sublist {α β : Type} [DecidableEq α] (l : List (α × β)) (a : α) :
    List.Sublist (dkeys (derase l a)) (dkeys l) := by
  induction l with
  | nil => simp [derase]
  | cons p t ih =>
    obtain ⟨k, v⟩ := p
    by_cases hk : k = a
    · subst hk
      rw [show derase ((k, v) :: t) k = t from by simp [derase]]
      exact List.sublist_cons_self k (dkeys t)
    · rw [show derase ((k, v) :: t) a = (k, v) :: derase t a from by simp [derase, hk]]
      exact List.Sublist.cons₂ k ih

theorem dkeys_derase_nodup {α β : Type} [DecidableEq α] (l : List (α × β)) (a : α)
    (h : (dkeys l).Nodup) : (dkeys (derase l a)).Nodup :=
  h.sublist (dkeys_derase_sublist l a)

theorem derase_dinsert_fresh {α β : Type} [DecidableEq α] (l : List (α × β)) (a : α) (b : β)
    (h : dlookup l a = none) : derase (dinsert l a b) a = l := by
  induction l with
  | nil => simp [dinsert, derase]
  | cons p t ih =>
    obtain ⟨k, v⟩ := p
    by_cases hk : k = a
    · subst hk
      simp [dlookup] at h
    · have hstep : dlookup ((k, v) :: t) a = dlookup t a := by simp [dlookup, hk]
      rw [hstep] at h
      simp [dinsert, derase, hk, ih h]

theorem digitsVal_singleton (c : Char) : digitsVal [c] = c.toNat - 48 := by
  simp [digitsVal]

theorem digitsVal_append_last (l : List Char) (c : Char) :
    digitsVal (l ++ [c]) = 10 * digitsVal l + (c.toNat - 48) := by
  simp [digitsVal, List.foldl_append]

theorem digitVal_digitChar (d : Nat) (h : d < 10) : (digitChar d).toNat - 48 = d := by
  interval_cases d <;> rfl

theorem digitsVal_natDigitsAux (fuel n : Nat) (h : n < fuel) :
    digitsVal (natDigitsAux fuel n) = n := by
  induction fuel generalizing n with
  | zero => omega
  | succ fuel ih =>
    by_cases hn : n < 10
    · rw [show natDigitsAux (fuel + 1) n = [digitChar n] from by simp [natDigitsAux, hn]]
      rw [digitsVal_singleton, digitVal_digitChar n hn]
    · rw [show natDigitsAux (fuel + 1) n =
          natDigitsAux fuel (n / 10) ++ [digitChar (n % 10)] from by simp [natDigitsAux, hn]]
      rw [digitsVal_append_last]
      have hdiv : n / 10 < n := Nat.div_lt_self (by omega) (by omega)
      rw [ih (n / 10) (by omega)]
      rw [digitVal_digitChar (n % 10) (Nat.mod_lt n (by omega))]
      omega

theorem natRepr_data (n : Nat) : (natRepr n).data = natDigitsAux (n + 1) n := rfl

theorem natRepr_injective : Function.Injective natRepr := by
  intro m n h
  have hdata : natDigitsAux (m + 1) m = natDigitsAux (n + 1) n := by
    rw [← natRepr_data, ← natRepr_data, h]
  have hval := congrArg digitsVal hdata
  rw [digitsVal_natDigitsAux (m + 1) m (Nat.lt_succ_self m),
    digitsVal_natDigitsAux (n + 1) n (Nat.lt_succ_self n)] at hval
  exact hval

theorem append_natRepr_injective (base : String) :
    Function.Injective (fun j => base ++ natRepr j) := by
  intro m n h
  have hdata : base.data ++ (natRepr m).data = base.data ++ (natRepr n).data :=
    congrArg String.data h
  have htail : (natRepr m).data = (natRepr n).data := by
    exact List.append_cancel_left hdata
  apply natRepr_injective
  cases hm : natRepr m with
  | mk dm =>
    cases hn : natRepr n with
    | mk dn =>
      rw [hm, hn] at htail
      simp at htail
      rw [htail]

theorem exists_free_suffix (nm : List (String × Conn)) (base : String) :
    ∃ j, 2 ≤ j ∧ j < nm.length + 3 ∧ dlookup nm (base ++ natRepr j) = none := by
  by_contra hno
  push_neg at hno
  have hmem : ∀ j, 2 ≤ j → j < nm.length + 3 → (base ++ natRepr j) ∈ dkeys nm := by
    intro j h1 h2
    have := hno j h1 h2
    cases hl : dlookup nm (base ++ natRepr j) with
    | none => exact absurd hl this
    | some b => exact mem_dkeys_of_dlookup nm (base ++ natRepr j) b hl
  have hsub : (Finset.Ico 2 (nm.length + 3)).image (fun j => base ++ natRepr j) ⊆
      (dkeys nm).toFinset := by
    intro s hs
    rw [Finset.mem_image] at hs
    obtain ⟨j, hj, rfl⟩ := hs
    rw [Finset.mem_Ico] at hj
    rw [List.mem_toFinset]
    exact hmem j hj.1 hj.2
  have hcard1 : ((Finset.Ico 2 (nm.length + 3)).image (fun j => base ++ natRepr j)).card =
      nm.length + 1 := by
    rw [Finset.card_image_of_injective _ (append_natRepr_injective base), Nat.card_Ico]
    omega
  have hcard2 : (dkeys nm).toFinset.card ≤ nm.length := by
    have h1 := List.toFinset_card_le (dkeys nm)
    have h2 : (dkeys nm).length = nm.length := List.length_map nm Prod.fst
    omega
  have := Finset.card_le_card hsub
  omega

theorem searchSuffix_found (nm : List (String × Conn)) (base : String) :
    ∀ fuel i, (∃ j, i ≤ j ∧ j < i + fuel ∧ dlookup nm (base ++ natRepr j) = none) →
    ∃ k, i ≤ k ∧ searchSuffix nm base fuel i = some (base ++ natRepr k) ∧
      dlookup nm (base ++ natRepr k) = none ∧
      ∀ j, i ≤ j → j < k → dlookup nm (base ++ natRepr j) ≠ none := by
  intro fuel
  induction fuel with
  | zero =>
    intro i h
    obtain ⟨j, h1, h2, _⟩ := h
    omega
  | succ fuel ih =>
    intro i h
    cases hc : dlookup nm (base ++ natRepr i) with
    | none =>
      refine ⟨i, Nat.le_refl i, ?_, hc, ?_⟩
      · simp [searchSuffix, hc]
      · intro j h1 h2
        omega
    | some v =>
      obtain ⟨j, h1, h2, hfree⟩ := h
      have hji : j ≠ i := by
        intro he
        rw [he, hc] at hfree
        cases hfree
      obtain ⟨k, hk1, hk2, hk3, hk4⟩ := ih (i + 1) ⟨j, by omega, by omega, hfree⟩
      refine ⟨k, by omega, ?_, hk3, ?_⟩
      · simp [searchSuffix, hc]
        exact hk2
      · intro j2 hj2a hj2b
        by_cases hji2 : j2 = i
        · rw [hji2, hc]
          intro hfalse
          cases hfalse
        · exact hk4 j2 (by omega) hj2b

theorem makeUnique_free_case (nm : List (String × Conn)) (base : String)
    (h : dlookup nm base = none) : makeUniqueNickname nm base = base := by
  simp [makeUniqueNickname, h]

theorem makeUnique_taken_case (nm : List (String × Conn)) (base : String)
    (h : dlookup nm base ≠ none) :
    ∃ k, 2 ≤ k ∧ makeUniqueNickname nm base = base ++ natRepr k ∧
      dlookup nm (base ++ natRepr k) = none ∧
      ∀ j, 2 ≤ j → j < k → dlookup nm (base ++ natRepr j) ≠ none := by
  obtain ⟨j, hj1, hj2, hjfree⟩ := exists_free_suffix nm base
  obtain ⟨k, hk1, hk2, hk3, hk4⟩ :=
    searchSuffix_found nm base (nm.length + 1) 2 ⟨j, hj1, by omega, hjfree⟩
  cases hv : dlookup nm base with
  | none => exact absurd hv h
  | some v =>
    refine ⟨k, hk1, ?_, hk3, hk4⟩
    simp [makeUniqueNickname, hv, hk2]

theorem makeUnique_fresh (nm : List (String × Conn)) (base : String) :
    dlookup nm (makeUniqueNickname nm base) = none := by
  cases hv : dlookup nm base with
  | none => rw [makeUnique_free_case nm base hv]; exact hv
  | some v =>
    obtain ⟨k, _, heq, hfree, _⟩ := makeUnique_taken_case nm base (by rw [hv]; intro h; cases h)
    rw [heq]
    exact hfree

theorem makeUnique_deterministic (nm nm2 : List (String × Conn)) (base : String)
    (hsame : ∀ s, dlookup nm s = none ↔ dlookup nm2 s = none) :
    makeUniqueNickname nm base = makeUniqueNickname nm2 base := by
  cases hv : dlookup nm base with
  | none =>
    have hv2 : dlookup nm2 base = none := (hsame base).1 hv
    rw [makeUnique_free_case nm base hv, makeUnique_free_case nm2 base hv2]
  | some v =>
    have hne : dlookup nm base ≠ none := by rw [hv]; intro h; cases h
    have hne2 : dlookup nm2 base ≠ none := by
      intro h
      exact hne ((hsame base).2 h)
    obtain ⟨k, hk1, hk2, hk3, hk4⟩ := makeUnique_taken_case nm base hne
    obtain ⟨k2, hl1, hl2, hl3, hl4⟩ := makeUnique_taken_case nm2 base hne2
    have hkk : k = k2 := by
      by_contra hkk
      rcases Nat.lt_or_ge k k2 with hlt | hge
      · exact hl4 k hk1 hlt ((hsame (base ++ natRepr k)).1 hk3)
      · have hlt2 : k2 < k := by omega
        exact hk4 k2 hl1 hlt2 ((hsame (base ++ natRepr k2)).2 hl3)
    rw [hk2, hl2, hkk]

theorem sendLine_noFail (c : Conn) (line : String) :
    sendLine noFail c line = [Event.send c line] := rfl

theorem sendLine_eq (fail : Conn → Bool) (c : Conn) (line : String) :
    sendLine fail c line = if fail c then [] else [Event.send c line] := by
  by_cases h : fail c <;> simp [sendLine, sendBytes, h]

theorem sendAll_eq_filter (fail : Conn → Bool) (line : String) (l : List Conn) :
    sendAll fail l line =
      (l.filter (fun c => ! fail c)).map (fun c => Event.send c line) := by
  induction l with
  | nil => simp [sendAll]
  | cons c t ih =>
    by_cases h : fail c
    · simp [sendAll, sendLine_eq, h, ih]
    · simp [sendAll, sendLine_eq, h, ih]

theorem regInv_empty : RegInv Registry.empty := by
  refine ⟨List.nodup_nil, List.nodup_nil, ?_, ?_⟩
  · intro c n h
    cases h
  · intro n c h
    cases h

theorem regInv_register (r : Registry) (c : Conn) (n : String) (h : RegInv r)
    (hn : lookupConnection r n = none) (hc : lookupNickname r c = none) :
    RegInv (registerClient r c n) := by
  obtain ⟨hnc, hnn, hfwd, hbwd⟩ := h
  refine ⟨dkeys_dinsert_nodup r.clients c n hnc, dkeys_dinsert_nodup r.nickMap n c hnn, ?_, ?_⟩
  · intro c2 n2 hl
    simp only [registerClient] at hl ⊢
    by_cases hcc : c2 = c
    · rw [hcc] at hl ⊢
      rw [dlookup_dinsert_self] at hl
      cases hl
      exact dlookup_dinsert_self r.nickMap n c
    · rw [dlookup_dinsert_ne r.clients c c2 n hcc] at hl
      have hold := hfwd c2 n2 hl
      have hnn2 : n2 ≠ n := by
        intro he
        rw [he] at hold
        rw [show lookupConnection r n = dlookup r.nickMap n from rfl] at hn
        rw [hn] at hold
        cases hold
      rw [dlookup_dinsert_ne r.nickMap n n2 c hnn2]
      exact hold
  · intro n2 c2 hl
    simp only [registerClient] at hl ⊢
    by_cases hnn2 : n2 = n
    · rw [hnn2] at hl ⊢
      rw [dlookup_dinsert_self] at hl
      cases hl
      exact dlookup_dinsert_self r.clients c n
    · rw [dlookup_dinsert_ne r.nickMap n n2 c hnn2] at hl
      have hold := hbwd n2 c2 hl
      have hcc : c2 ≠ c := by
        intro he
        rw [he] at hold
        rw [show lookupNickname r c = dlookup r.clients c from rfl] at hc
        rw [hc] at hold
        cases hold
      rw [dlookup_dinsert_ne r.clients c c2 n hcc]
      exact hold

theorem regInv_unregister (r : Registry) (c : Conn) (h : RegInv r) :
    RegInv ((removeClient r c).1) := by
  obtain ⟨hnc, hnn, hfwd, hbwd⟩ := h
  cases hl : dlookup r.clients c with
  | none =>
    rw [show (removeClient r c).1 = r from by simp [removeClient, hl]]
    exact ⟨hnc, hnn, hfwd, hbwd⟩
  | some n =>
    rw [show (removeClient r c).1 = ⟨derase r.clients c, derase r.nickMap n⟩ from by
      simp [removeClient, hl]]
    refine ⟨dkeys_derase_nodup r.clients c hnc, dkeys_derase_nodup r.nickMap n hnn, ?_, ?_⟩
    · intro c2 n2 hl2
      simp only at hl2 ⊢
      have hcc : c2 ≠ c := by
        intro he
        rw [he, dlookup_derase_self r.clients c hnc] at hl2
        cases hl2
      rw [dlookup_derase_ne r.clients c c2 hcc] at hl2
      have hold := hfwd c2 n2 hl2
      have hnn2 : n2 ≠ n := by
        intro he
        rw [he] at hold
        have hcn := hfwd c n hl
        rw [hold] at hcn
        cases hcn
        exact hcc rfl
      rw [dlookup_derase_ne r.nickMap n n2 hnn2]
      exact hold
    · intro n2 c2 hl2
      simp only at hl2 ⊢
      have hnn2 : n2 ≠ n := by
        intro he
        rw [he, dlookup_derase_self r.nickMap n hnn] at hl2
        cases hl2
      rw [dlookup_derase_ne r.nickMap n n2 hnn2] at hl2
      have hold := hbwd n2 c2 hl2
      have hcc : c2 ≠ c := by
        intro he
        rw [he] at hold
        rw [hl] at hold
        cases hold
        exact hnn2 rfl
      rw [dlookup_derase_ne r.clients c c2 hcc]
      exact hold

theorem regInv_applyOps (ops : List RegOp) :
    ∀ r, RegInv r → ValidOps r ops → RegInv (applyOps r ops) := by
  induction ops with
  | nil =>
    intro r h _
    exact h
  | cons op rest ih =>
    intro r h hv
    cases op with
    | reg c n =>
      obtain ⟨hn, hc, hrest⟩ := hv
      rw [show applyOps r (RegOp.reg c n :: rest) = applyOps (applyOp r (RegOp.reg c n)) rest
        from rfl]
      exact ih (applyOp r (RegOp.reg c n)) (regInv_register r c n h hn hc) hrest
    | unreg c =>
      rw [show applyOps r (RegOp.unreg c :: rest) = applyOps (applyOp r (RegOp.unreg c)) rest
        from rfl]
      exact ih (applyOp r (RegOp.unreg c)) (regInv_unregister r c h) hv

/-- Claim C1: the spec requires the check-and-reserve sequence of a handshake
to be atomic so that no two sessions register the same nickname.  The code
releases the lock between `_make_unique_nickname` and `_register_client`, so
the interleaving gen(0), gen(1), reg(0), reg(1) of two handshakes with base
"alice" registers both live sessions under the nickname "alice", while the
serialized schedule produces the distinct suffixed names the spec describes. -/
theorem c1_handshake_race_demo :
    (dlookup (hsRun (Registry.empty, [(0, HsPhase.start "alice"), (1, HsPhase.start "alice")])
        [0, 1, 0, 1]).1.clients 0 = some "alice" ∧
      dlookup (hsRun (Registry.empty, [(0, HsPhase.start "alice"), (1, HsPhase.start "alice")])
        [0, 1, 0, 1]).1.clients 1 = some "alice") ∧
    (dlookup (hsRun (Registry.empty, [(0, HsPhase.start "alice"), (1, HsPhase.start "alice")])
        [0, 0, 1, 1]).1.clients 0 = some "alice" ∧
      dlookup (hsRun (Registry.empty, [(0, HsPhase.start "alice"), (1, HsPhase.start "alice")])
        [0, 0, 1, 1]).1.clients 1 = some "alice2") := by
  decide

/-- Claim C3: the spec requires `_shutdown` to run its drain at most once, but
the code keeps no ran-before flag and does not clear the registry, so a second
invocation re-runs the whole drain: it re-iterates the still-populated client
snapshot, re-attempts the notice send (now failing on the closed socket),
re-closes the socket and re-closes the listener — not a no-op. -/
theorem c3_shutdown_not_idempotent_demo :
    (shutdownRun noFail ⟨⟨[(0, "alice")], [("alice", 0)]⟩, false, true, []⟩).2 =
      [Event.send 0 "서버가 종료됩니다.", Event.close 0, Event.closeListener] ∧
    (shutdownRun noFail
        (shutdownRun noFail ⟨⟨[(0, "alice")], [("alice", 0)]⟩, false, true, []⟩).1).2 =
      [Event.close 0, Event.closeListener] ∧
    (shutdownRun noFail
        (shutdownRun noFail ⟨⟨[(0, "alice")], [("alice", 0)]⟩, false, true, []⟩).1).2 ≠ [] := by
  decide

/-- Claim C2 (counterexample): the claim quantifies over any register sequence
whose nicknames are generator-fresh, which allows re-registering a connection
that is already live.  Registering connection 0 as "a" and then as "b" (both
names fresh when produced) leaves the stale entry "a" in `nick_map`, and the
round trip for the still-registered nickname "a" returns "b", not "a". -/
theorem c2_bijectivity_counterexample :
    makeUniqueNickname Registry.empty.nickMap "a" = "a" ∧
    makeUniqueNickname (registerClient Registry.empty 0 "a").nickMap "b" = "b" ∧
    lookupConnection (registerClient (registerClient Registry.empty 0 "a") 0 "b") "a" =
      some 0 ∧
    ((lookupConnection (registerClient (registerClient Registry.empty 0 "a") 0 "b") "a").bind
      (lookupNickname (registerClient (registerClient Registry.empty 0 "a") 0 "b"))) =
      some "b" := by
  decide

/-- Claim C2 (amended): bijectivity is an invariant of register/unregister
sequences whose register calls use a generator-fresh nickname and — the
amendment forced by the counterexample — a connection that is not currently
registered (the server registers each connection at most once, so its own
call discipline satisfies this): both lookup round trips hold. -/
theorem c2_registry_bijectivity (ops : List RegOp) (hv : ValidOps Registry.empty ops) :
    (∀ c n, lookupNickname (applyOps Registry.empty ops) c = some n →
      lookupConnection (applyOps Registry.empty ops) n = some c) ∧
    (∀ n c, lookupConnection (applyOps Registry.empty ops) n = some c →
      lookupNickname (applyOps Registry.empty ops) c = some n) := by
  have h := regInv_applyOps ops Registry.empty regInv_empty hv
  exact ⟨h.2.2.1, h.2.2.2⟩

/-- Witness for `c2_registry_bijectivity` at a concrete operation sequence. -/
theorem c2_registry_bijectivity_witness :
    lookupConnection (applyOps Registry.empty
      [RegOp.reg 0 "alice", RegOp.unreg 0, RegOp.reg 1 "alice"]) "alice" = some 1 :=
  (c2_registry_bijectivity [RegOp.reg 0 "alice", RegOp.unreg 0, RegOp.reg 1 "alice"]
    ⟨rfl, rfl, rfl, rfl, trivial⟩).1 1 "alice" rfl

/-- Claim C4: `_make_unique_nickname` returns the base itself when the base
is not a taken nickname; otherwise it returns the base followed by the least
decimal suffix `k ≥ 2` whose concatenation is not taken; and the result
depends only on which names are taken, not on the rest of the map. -/
theorem c4_generate_unique_spec (nm : List (String × Conn)) (base : String) :
    (dlookup nm base = none → makeUniqueNickname nm base = base) ∧
    (dlookup nm base ≠ none →
      ∃ k, 2 ≤ k ∧ makeUniqueNickname nm base = base ++ natRepr k ∧
        dlookup nm (base ++ natRepr k) = none ∧
        ∀ j, 2 ≤ j → j < k → dlookup nm (base ++ natRepr j) ≠ none) ∧
    (∀ nm2, (∀ s, dlookup nm s = none ↔ dlookup nm2 s = none) →
      makeUniqueNickname nm base = makeUniqueNickname nm2 base) :=
  ⟨makeUnique_free_case nm base, makeUnique_taken_case nm base,
   fun nm2 hsame => makeUnique_deterministic nm nm2 base hsame⟩

/-- Witness for `c4_generate_unique_spec`: a free base is returned unchanged,
and a taken base gets the least free suffix. -/
theorem c4_generate_unique_witness :
    makeUniqueNickname ([] : List (String × Conn)) "bob" = "bob" ∧
    (∃ k, 2 ≤ k ∧ makeUniqueNickname [("alice", 0)] "alice" = "alice" ++ natRepr k ∧
      dlookup [("alice", 0)] ("alice" ++ natRepr k) = none ∧
      ∀ j, 2 ≤ j → j < k → dlookup [("alice", 0)] ("alice" ++ natRepr j) ≠ none) :=
  ⟨(c4_generate_unique_spec [] "bob").1 rfl,
   (c4_generate_unique_spec [("alice", 0)] "alice").2.1 (by decide)⟩

/-- Claim C10: the suffix search of `_make_unique_nickname` always succeeds:
fuel one larger than the nickname map suffices (at most `|nick_map|` of the
pairwise-distinct decimal candidates can be taken), and the returned
nickname is never a taken one. -/
theorem c10_suffix_search_terminates (nm : List (String × Conn)) (base : String) :
    (∃ cand, searchSuffix nm base (nm.length + 1) 2 = some cand) ∧
    dlookup nm (makeUniqueNickname nm base) = none := by
  constructor
  · obtain ⟨j, hj1, hj2, hjf⟩ := exists_free_suffix nm base
    obtain ⟨k, _, hk2, _, _⟩ :=
      searchSuffix_found nm base (nm.length + 1) 2 ⟨j, hj1, by omega, hjf⟩
    exact ⟨base ++ natRepr k, hk2⟩
  · exact makeUnique_fresh nm base

/-- Claim C5: `_broadcast` writes the line to exactly the connections of the
snapshot taken at call time whose write succeeds; a failing write on one
connection is swallowed and removes only that connection's delivery. -/
theorem c5_broadcast_snapshot (fail : Conn → Bool) (r : Registry) (line : String) :
    broadcast fail r line =
      ((snapshotConnections r).filter (fun c => ! fail c)).map
        (fun c => Event.send c line) ∧
    (∀ c, fail c = false → c ∈ snapshotConnections r →
      Event.send c line ∈ broadcast fail r line) ∧
    (∀ c line2, Event.send c line2 ∈ broadcast fail r line →
      c ∈ snapshotConnections r ∧ line2 = line ∧ fail c = false) := by
  have h := sendAll_eq_filter fail line (snapshotConnections r)
  refine ⟨h, ?_, ?_⟩
  · intro c hf hmem
    rw [show broadcast fail r line = sendAll fail (snapshotConnections r) line from rfl, h,
      List.mem_map]
    refine ⟨c, ?_, rfl⟩
    rw [List.mem_filter]
    refine ⟨hmem, by rw [hf]; rfl⟩
  · intro c line2 hmem
    rw [show broadcast fail r line = sendAll fail (snapshotConnections r) line from rfl, h,
      List.mem_map] at hmem
    obtain ⟨c2, hc2, heq⟩ := hmem
    rw [List.mem_filter] at hc2
    cases heq
    refine ⟨hc2.1, rfl, ?_⟩
    have hb := hc2.2
    simp at hb
    exact hb

/-- Witness for `c5_broadcast_snapshot` at a concrete registry. -/
theorem c5_broadcast_snapshot_witness :
    Event.send 0 "hi" ∈ broadcast noFail ⟨[(0, "alice")], [("alice", 0)]⟩ "hi" :=
  (c5_broadcast_snapshot noFail ⟨[(0, "alice")], [("alice", 0)]⟩ "hi").2.1 0 rfl (by decide)

/-- Claim C8: a whisper whose line splits into fewer than three fields, or
whose target or message field is empty, produces exactly one usage-error
reply to the sender; a well-formed whisper to a nickname absent from the
registry produces exactly one target-not-found reply to the sender.  In all
three cases no other connection receives anything (the event list is that
single send) and the registry is not touched (`handleWhisper` is a pure
reader of the registry, as `_handle_whisper` only reads under the lock). -/
theorem c8_whisper_errors (r : Registry) (s : Conn) (raw : String) :
    ((pySplitMax2 raw).length < 3 →
      handleWhisper noFail r s raw = [Event.send s "형식: /w 대상닉 메시지"]) ∧
    (∀ w t m, pySplitMax2 raw = [w, t, m] → (t = "" ∨ m = "") →
      handleWhisper noFail r s raw = [Event.send s "형식: /w 대상닉 메시지"]) ∧
    (∀ w t m, pySplitMax2 raw = [w, t, m] → t ≠ "" → m ≠ "" →
      dlookup r.nickMap t = none →
      handleWhisper noFail r s raw =
        [Event.send s ("대상 [" ++ t ++ "]을(를) 찾을 수 없습니다.")]) := by
  refine ⟨?_, ?_, ?_⟩
  · intro hlen
    unfold handleWhisper
    cases hp : pySplitMax2 raw with
    | nil => simp [sendLine_noFail]
    | cons a t1 =>
      cases t1 with
      | nil => simp [sendLine_noFail]
      | cons b t2 =>
        cases t2 with
        | nil => simp [sendLine_noFail]
        | cons d t3 =>
          rw [hp] at hlen
          simp at hlen
          omega
  · intro w t m hp hor
    unfold handleWhisper
    rw [hp]
    simp only [if_pos hor]
    rfl
  · intro w t m hp ht hm hnone
    unfold handleWhisper
    rw [hp]
    simp [ht, hm, hnone, sendLine_noFail]

/-- Witness for `c8_whisper_errors` on the three concrete error shapes. -/
theorem c8_whisper_errors_witness :
    handleWhisper noFail Registry.empty 0 "/w alice" =
      [Event.send 0 "형식: /w 대상닉 메시지"] ∧
    handleWhisper noFail Registry.empty 0 "/w  hello" =
      [Event.send 0 "형식: /w 대상닉 메시지"] ∧
    handleWhisper noFail Registry.empty 0 "/w ghost hello" =
      [Event.send 0 "대상 [ghost]을(를) 찾을 수 없습니다."] :=
  ⟨(c8_whisper_errors Registry.empty 0 "/w alice").1 (by decide),
   (c8_whisper_errors Registry.empty 0 "/w  hello").2.1 "/w" "" "hello" (by decide)
     (Or.inl rfl),
   (c8_whisper_errors Registry.empty 0 "/w ghost hello").2.2 "/w" "ghost" "hello"
     (by decide) (by decide) (by decide) rfl⟩

/-- Claim C9: when the sender is no longer registered but the whisper target
exists, `_handle_whisper` still delivers to the target and confirms to the
sender, substituting the fixed placeholder for the sender nickname, and the
handler loop continues after the whisper; a plain chat message from an
unregistered sender instead terminates the loop silently. -/
theorem c9_whisper_unregistered_sender (r : Registry) (s : Conn) (w t m raw : String)
    (tc : Conn) (hp : pySplitMax2 raw = [w, t, m]) (ht : t ≠ "") (hm : m ≠ "")
    (hsender : dlookup r.clients s = none) (htarget : dlookup r.nickMap t = some tc) :
    handleWhisper noFail r s raw =
      [Event.send tc ("(귓속말) 알수없음> " ++ m),
       Event.send s ("(귓속말 전송) 알수없음 -> " ++ t ++ ": " ++ m)] ∧
    (∀ s0 rest, s0.trim = raw → raw ≠ "" → raw ≠ "/종료" →
      raw.startsWith "/w " = true →
      handleLoop noFail r s (RecvR.data s0 :: rest) =
        (handleWhisper noFail r s raw ++ (handleLoop noFail r s rest).1,
         (handleLoop noFail r s rest).2)) ∧
    (∀ s1 rest, s1.trim ≠ "" → s1.trim ≠ "/종료" →
      (s1.trim).startsWith "/w " = false →
      handleLoop noFail r s (RecvR.data s1 :: rest) = ([], true)) := by
  refine ⟨?_, ?_, ?_⟩
  · unfold handleWhisper
    rw [hp]
    simp [ht, hm, htarget, hsender, pyOr, sendLine_noFail]
  · intro s0 rest h1 h2 h3 h4
    conv_lhs => rw [handleLoop]
    simp [h1, h2, h3, h4]
  · intro s1 rest h1 h2 h3
    conv_lhs => rw [handleLoop]
    simp [h1, h2, h3, hsender]

/-- Witness for `c9_whisper_unregistered_sender` at a concrete registry where
connection 0 is unregistered and "bob" is registered on connection 1. -/
theorem c9_whisper_unregistered_sender_witness :
    handleWhisper noFail ⟨[(1, "bob")], [("bob", 1)]⟩ 0 "/w bob hi" =
      [Event.send 1 "(귓속말) 알수없음> hi",
       Event.send 0 "(귓속말 전송) 알수없음 -> bob: hi"] :=
  (c9_whisper_unregistered_sender ⟨[(1, "bob")], [("bob", 1)]⟩ 0 "/w" "bob" "hi"
    "/w bob hi" 1 (by decide) (by decide) (by decide) rfl rfl).1

theorem removeClientRun_fresh (fail : Conn → Bool) (r : Registry) (c : Conn)
    (h : dlookup r.clients c = none) :
    removeClientRun fail r c = (r, [Event.close c]) := by
  simp [removeClientRun, h]

theorem removeClientRun_registered (fail : Conn → Bool) (r : Registry) (c : Conn)
    (n : String) (h : dlookup r.clients c = some n) :
    removeClientRun fail r c =
      (⟨derase r.clients c, derase r.nickMap n⟩,
       broadcast fail ⟨derase r.clients c, derase r.nickMap n⟩
         ("[" ++ n ++ "]님이 퇴장하셨습니다.") ++ [Event.close c]) := by
  simp [removeClientRun, h]

theorem handleClient_abort (fail : Conn → Bool) (r : Registry) (c : Conn) (first : RecvR)
    (script : List RecvR) (hfirst : first = RecvR.closed ∨ first = RecvR.err)
    (hfresh : dlookup r.clients c = none) :
    handleClient fail r c first script =
      ⟨r, sendLine fail c "닉네임을 입력해주세요:" ++ [Event.close c, Event.close c],
       true, none⟩ := by
  have hrm := removeClientRun_fresh fail r c hfresh
  cases hfirst with
  | inl h =>
    subst h
    simp [handleClient, handshakeForNickname, hrm]
  | inr h =>
    subst h
    simp [handleClient, handshakeForNickname, hrm]

theorem handleClient_data_eq (fail : Conn → Bool) (r : Registry) (c : Conn) (s : String)
    (script : List RecvR) :
    handleClient fail r c (RecvR.data s) script =
      (if (handleLoop fail
            (registerClient r c
              (makeUniqueNickname r.nickMap (if s.trim = "" then "user" else s.trim)))
            c script).2 = true then
        ⟨(removeClientRun fail
            (registerClient r c
              (makeUniqueNickname r.nickMap (if s.trim = "" then "user" else s.trim))) c).1,
         sendLine fail c "닉네임을 입력해주세요:" ++
           sendLine fail c ("닉네임이 [" ++
             makeUniqueNickname r.nickMap (if s.trim = "" then "user" else s.trim) ++
             "]로 설정되었습니다.") ++
           broadcast fail
             (registerClient r c
               (makeUniqueNickname r.nickMap (if s.trim = "" then "user" else s.trim)))
             ("[" ++ makeUniqueNickname r.nickMap (if s.trim = "" then "user" else s.trim) ++
               "]님이 입장하셨습니다.") ++
           sendLine fail c "안내: 일반 메시지는 모두에게 전송됩니다." ++
           sendLine fail c "안내: 종료는 /종료, 귓속말은 /w 대상닉 메시지" ++
           (handleLoop fail
             (registerClient r c
               (makeUniqueNickname r.nickMap (if s.trim = "" then "user" else s.trim)))
             c script).1 ++
           (removeClientRun fail
             (registerClient r c
               (makeUniqueNickname r.nickMap (if s.trim = "" then "user" else s.trim))) c).2,
         true,
         some (makeUniqueNickname r.nickMap (if s.trim = "" then "user" else s.trim))⟩
      else
        ⟨registerClient r c
           (makeUniqueNickname r.nickMap (if s.trim = "" then "user" else s.trim)),
         sendLine fail c "닉네임을 입력해주세요:" ++
           sendLine fail c ("닉네임이 [" ++
             makeUniqueNickname r.nickMap (if s.trim = "" then "user" else s.trim) ++
             "]로 설정되었습니다.") ++
           broadcast fail
             (registerClient r c
               (makeUniqueNickname r.nickMap (if s.trim = "" then "user" else s.trim)))
             ("[" ++ makeUniqueNickname r.nickMap (if s.trim = "" then "user" else s.trim) ++
               "]님이 입장하셨습니다.") ++
           sendLine fail c "안내: 일반 메시지는 모두에게 전송됩니다." ++
           sendLine fail c "안내: 종료는 /종료, 귓속말은 /w 대상닉 메시지" ++
           (handleLoop fail
             (registerClient r c
               (makeUniqueNickname r.nickMap (if s.trim = "" then "user" else s.trim)))
             c script).1,
         false,
         some (makeUniqueNickname r.nickMap (if s.trim = "" then "user" else s.trim))⟩) := by
  by_cases hb : (handleLoop fail
      (registerClient r c
        (makeUniqueNickname r.nickMap (if s.trim = "" then "user" else s.trim)))
      c script).2 = true
  · simp [handleClient, handshakeForNickname, hb]
  · simp [handleClient, handshakeForNickname, hb]

/-- Claim C6: on a fresh connection, a handshake whose first read fails or
returns no data aborts — no registration, registry untouched, socket closed
(twice: once in the abort branch, once by the scoped cleanup, tolerated) —
while a successful read yields, in order: the prompt line (sent before the
read), the confirmation line naming the assigned nickname (the trimmed input,
or the default base "user" when empty, made unique), the join broadcast of
the just-registered registry, then exactly the two fixed help lines. -/
theorem c6_handshake_order (r : Registry) (c : Conn) (hfresh : dlookup r.clients c = none) :
    (∀ first script, first = RecvR.closed ∨ first = RecvR.err →
      handleClient noFail r c first script =
        ⟨r, [Event.send c "닉네임을 입력해주세요:", Event.close c, Event.close c],
         true, none⟩) ∧
    (∀ s script, ∃ rest,
      (handleClient noFail r c (RecvR.data s) script).assigned =
        some (makeUniqueNickname r.nickMap (if s.trim = "" then "user" else s.trim)) ∧
      (handleClient noFail r c (RecvR.data s) script).events =
        Event.send c "닉네임을 입력해주세요:" ::
        Event.send c ("닉네임이 [" ++
          makeUniqueNickname r.nickMap (if s.trim = "" then "user" else s.trim) ++
          "]로 설정되었습니다.") ::
        (broadcast noFail
          (registerClient r c
            (makeUniqueNickname r.nickMap (if s.trim = "" then "user" else s.trim)))
          ("[" ++ makeUniqueNickname r.nickMap (if s.trim = "" then "user" else s.trim) ++
            "]님이 입장하셨습니다.") ++
         (Event.send c "안내: 일반 메시지는 모두에게 전송됩니다." ::
          Event.send c "안내: 종료는 /종료, 귓속말은 /w 대상닉 메시지" :: rest))) := by
  constructor
  · intro first script hfirst
    rw [handleClient_abort noFail r c first script hfirst hfresh]
    simp [sendLine_noFail]
  · intro s script
    rw [handleClient_data_eq noFail r c s script]
    by_cases hb : (handleLoop noFail
        (registerClient r c
          (makeUniqueNickname r.nickMap (if s.trim = "" then "user" else s.trim)))
        c script).2 = true
    · rw [if_pos hb]
      refine ⟨(handleLoop noFail
          (registerClient r c
            (makeUniqueNickname r.nickMap (if s.trim = "" then "user" else s.trim)))
          c script).1 ++
        (removeClientRun noFail
          (registerClient r c
            (makeUniqueNickname r.nickMap (if s.trim = "" then "user" else s.trim))) c).2,
        rfl, ?_⟩
      simp [sendLine_noFail]
    · rw [if_neg hb]
      refine ⟨(handleLoop noFail
          (registerClient r c
            (makeUniqueNickname r.nickMap (if s.trim = "" then "user" else s.trim)))
          c script).1, rfl, ?_⟩
      simp [sendLine_noFail]

/-- Witness for `c6_handshake_order`: a fresh connection into the empty
registry, nickname "alice", immediately disconnecting. -/
theorem c6_handshake_order_witness :
    handleClient noFail Registry.empty 0 RecvR.closed [] =
      ⟨Registry.empty,
       [Event.send 0 "닉네임을 입력해주세요:", Event.close 0, Event.close 0],
       true, none⟩ :=
  (c6_handshake_order Registry.empty 0 rfl).1 RecvR.closed [] (Or.inl rfl)

/-- Claim C7: whenever the handler finishes — handshake abort, quit command,
peer disconnect, read error, or unregistered-sender break — it runs the
scoped cleanup: the connection's registration is removed (the final registry
equals the initial one, since the handler is the sole owner of its entry),
the last event is the connection close, the abort path emits no leave
broadcast (only the prompt and the tolerated double close), and a registered
session's leave announcement is broadcast just before the close. -/
theorem c7_session_cleanup (fail : Conn → Bool) (r : Registry) (c : Conn) (first : RecvR)
    (script : List RecvR) (hfresh : dlookup r.clients c = none)
    (hfin : (handleClient fail r c first script).finished = true) :
    (handleClient fail r c first script).registry = r ∧
    (∃ evs0, (handleClient fail r c first script).events = evs0 ++ [Event.close c]) ∧
    ((handleClient fail r c first script).assigned = none →
      (handleClient fail r c first script).events =
        sendLine fail c "닉네임을 입력해주세요:" ++ [Event.close c, Event.close c]) ∧
    (∀ n, (handleClient fail r c first script).assigned = some n →
      ∃ evs0, (handleClient fail r c first script).events =
        evs0 ++ (broadcast fail r ("[" ++ n ++ "]님이 퇴장하셨습니다.") ++
          [Event.close c])) := by
  cases first with
  | closed =>
    rw [handleClient_abort fail r c RecvR.closed script (Or.inl rfl) hfresh]
    refine ⟨rfl, ⟨sendLine fail c "닉네임을 입력해주세요:" ++ [Event.close c], by simp⟩,
      fun _ => rfl, ?_⟩
    intro n hn
    cases hn
  | err =>
    rw [handleClient_abort fail r c RecvR.err script (Or.inr rfl) hfresh]
    refine ⟨rfl, ⟨sendLine fail c "닉네임을 입력해주세요:" ++ [Event.close c], by simp⟩,
      fun _ => rfl, ?_⟩
    intro n hn
    cases hn
  | data s =>
    rw [handleClient_data_eq fail r c s script] at hfin ⊢
    have hfreshnick : dlookup r.nickMap
        (makeUniqueNickname r.nickMap (if s.trim = "" then "user" else s.trim)) = none :=
      makeUnique_fresh r.nickMap (if s.trim = "" then "user" else s.trim)
    have hlook : dlookup (registerClient r c
        (makeUniqueNickname r.nickMap (if s.trim = "" then "user" else s.trim))).clients c =
        some (makeUniqueNickname r.nickMap (if s.trim = "" then "user" else s.trim)) :=
      dlookup_dinsert_self r.clients c
        (makeUniqueNickname r.nickMap (if s.trim = "" then "user" else s.trim))
    have hrm := removeClientRun_registered fail
      (registerClient r c
        (makeUniqueNickname r.nickMap (if s.trim = "" then "user" else s.trim))) c
      (makeUniqueNickname r.nickMap (if s.trim = "" then "user" else s.trim)) hlook
    have hr2 : (⟨derase (registerClient r c
        (makeUniqueNickname r.nickMap (if s.trim = "" then "user" else s.trim))).clients c,
        derase (registerClient r c
          (makeUniqueNickname r.nickMap (if s.trim = "" then "user" else s.trim))).nickMap
          (makeUniqueNickname r.nickMap (if s.trim = "" then "user" else s.trim))⟩ :
        Registry) = r := by
      show (⟨derase (dinsert r.clients c
          (makeUniqueNickname r.nickMap (if s.trim = "" then "user" else s.trim))) c,
        derase (dinsert r.nickMap
          (makeUniqueNickname r.nickMap (if s.trim = "" then "user" else s.trim)) c)
          (makeUniqueNickname r.nickMap (if s.trim = "" then "user" else s.trim))⟩ :
        Registry) = r
      rw [derase_dinsert_fresh r.clients c
          (makeUniqueNickname r.nickMap (if s.trim = "" then "user" else s.trim)) hfresh,
        derase_dinsert_fresh r.nickMap
          (makeUniqueNickname r.nickMap (if s.trim = "" then "user" else s.trim)) c
          hfreshnick]
    rw [hr2] at hrm
    by_cases hb : (handleLoop fail
        (registerClient r c
          (makeUniqueNickname r.nickMap (if s.trim = "" then "user" else s.trim)))
        c script).2 = true
    · rw [if_pos hb]
      rw [hrm]
      refine ⟨rfl, ?_, ?_, ?_⟩
      · refine ⟨sendLine fail c "닉네임을 입력해주세요:" ++
          sendLine fail c ("닉네임이 [" ++
            makeUniqueNickname r.nickMap (if s.trim = "" then "user" else s.trim) ++
            "]로 설정되었습니다.") ++
          broadcast fail
            (registerClient r c
              (makeUniqueNickname r.nickMap (if s.trim = "" then "user" else s.trim)))
            ("[" ++ makeUniqueNickname r.nickMap (if s.trim = "" then "user" else s.trim) ++
              "]님이 입장하셨습니다.") ++
          sendLine fail c "안내: 일반 메시지는 모두에게 전송됩니다." ++
          sendLine fail c "안내: 종료는 /종료, 귓속말은 /w 대상닉 메시지" ++
          (handleLoop fail
            (registerClient r c
              (makeUniqueNickname r.nickMap (if s.trim = "" then "user" else s.trim)))
            c script).1 ++
          broadcast fail r ("[" ++
            makeUniqueNickname r.nickMap (if s.trim = "" then "user" else s.trim) ++
            "]님이 퇴장하셨습니다."), ?_⟩
        simp [List.append_assoc]
      · intro hn
        cases hn
      · intro n hn
        cases hn
        refine ⟨sendLine fail c "닉네임을 입력해주세요:" ++
          sendLine fail c ("닉네임이 [" ++
            makeUniqueNickname r.nickMap (if s.trim = "" then "user" else s.trim) ++
            "]로 설정되었습니다.") ++
          broadcast fail
            (registerClient r c
              (makeUniqueNickname r.nickMap (if s.trim = "" then "user" else s.trim)))
            ("[" ++ makeUniqueNickname r.nickMap (if s.trim = "" then "user" else s.trim) ++
              "]님이 입장하셨습니다.") ++
          sendLine fail c "안내: 일반 메시지는 모두에게 전송됩니다." ++
          sendLine fail c "안내: 종료는 /종료, 귓속말은 /w 대상닉 메시지" ++
          (handleLoop fail
            (registerClient r c
              (makeUniqueNickname r.nickMap (if s.trim = "" then "user" else s.trim)))
            c script).1, ?_⟩
        simp [List.append_assoc]
    · rw [if_neg hb] at hfin
      simp at hfin

/-- Witness for `c7_session_cleanup`: a fresh connection, nickname "alice",
quitting immediately. -/
theorem c7_session_cleanup_witness :
    (handleClient noFail Registry.empty 0 (RecvR.data "alice") [RecvR.closed]).registry =
      Registry.empty :=
  (c7_session_cleanup noFail Registry.empty 0 (RecvR.data "alice") [RecvR.closed] rfl
    (by decide)).1
